import Mathlib

/-!
Verification of the coco 6809/CoCo emulator core against its specification.

The Rust sources under src/ are shallowly embedded: machine integers (u8,
u16) become `Nat` together with explicit masking where overflow matters,
`panic!` branches become `Option`/`none`, fallible functions return
`Except`, and `f32` audio arithmetic is modelled over `ℚ` (all the
operations the claims touch are exact in `f32` at the relevant scale).
-/

namespace Coco

/-- Bitwise NOT of an 8-bit value, as Rust `!b` computes on `u8`. -/
def not8 (b : Nat) : Nat := b ^^^ 0xff

/-- Bitwise NOT of a 16-bit value, as Rust `!v` computes on `u16`. -/
def not16 (v : Nat) : Nat := v ^^^ 0xffff

/-- Embeds `struct Sam` (src/sam.rs): a single 16-bit configuration word. -/
structure Sam where
  config : Nat
deriving DecidableEq

/-- Embeds `Sam::new` (src/sam.rs): a freshly constructed SAM has `config = 0`. -/
def Sam.new : Sam := ⟨0⟩

/-- Embeds `Sam::write` (src/sam.rs).  The `panic!()` taken when
`index >= 32` is modelled as `none`. -/
def Sam.write (s : Sam) (index : Nat) : Option Sam :=
  if 32 ≤ index then none
  else
    let val := 1 <<< (index / 2)
    if index &&& 1 == 0 then some ⟨s.config &&& not16 val⟩
    else some ⟨s.config ||| val⟩

/-- Applies a sequence of `Sam::write` calls left to right. -/
def Sam.writeSeq (s : Sam) : List Nat → Option Sam
  | [] => some s
  | i :: rest =>
    match s.write i with
    | none => none
    | some t => t.writeSeq rest

/-- Taken from the claim's wording: the last index of the sequence that
touches config bit `n` (index `i` touches bit `i >> 1`), if any. -/
def lastTouch : List Nat → Nat → Option Nat
  | [], _ => none
  | i :: rest, n =>
    match lastTouch rest n with
    | some j => some j
    | none => if i / 2 = n then some i else none

lemma testBit_not16 (v n : Nat) :
    (not16 v).testBit n = ((v.testBit n).xor (decide (n < 16))) := by
  have h : (0xffff : Nat) = 2 ^ 16 - 1 := by norm_num
  rw [not16, h, Nat.testBit_xor, Nat.testBit_two_pow_sub_one]

lemma testBit_one_shift (k n : Nat) : ((1 <<< k : Nat)).testBit n = decide (k = n) := by
  have h : (1 <<< k : Nat) = 2 ^ k := by
    simp [Nat.shiftLeft_eq]
  rw [h, Nat.testBit_two_pow]

lemma sam_writeSeq_spec (xs : List Nat) (h : ∀ i ∈ xs, i < 32) (s : Sam)
    (hs : s.config < 65536) (n : Nat) :
    ∃ t, s.writeSeq xs = some t ∧ t.config < 65536 ∧
      t.config.testBit n =
        (match lastTouch xs n with
         | some j => decide (j % 2 = 1)
         | none => s.config.testBit n) := by
  induction xs generalizing s with
  | nil => exact ⟨s, rfl, hs, rfl⟩
  | cons i rest ih =>
    have hi : i < 32 := h i (List.mem_cons_self i rest)
    have hrest : ∀ j ∈ rest, j < 32 := fun j hj => h j (List.mem_cons_of_mem i hj)
    have hval : (1 <<< (i / 2) : Nat) < 65536 := by
      have h2 : (1 <<< (i / 2) : Nat) = 2 ^ (i / 2) := by simp [Nat.shiftLeft_eq]
      have : i / 2 < 16 := by omega
      calc (1 <<< (i / 2) : Nat) = 2 ^ (i / 2) := h2
        _ < 2 ^ 16 := Nat.pow_lt_pow_right (by norm_num) this
        _ = 65536 := by norm_num
    have hand : i &&& 1 = i % 2 := Nat.and_one_is_mod i
    by_cases hpar : i % 2 = 0
    · -- even index clears the bit
      have hbeq : (i &&& 1 == 0) = true := by simp [hand, hpar]
      have hwrite : s.write i = some ⟨s.config &&& not16 (1 <<< (i / 2))⟩ := by
        simp [Sam.write, Nat.not_le.mpr hi, hbeq]
        exact fun hc => absurd hc (by omega)
      have heven : i % 2 = 0 := hpar
      have hs' : s.config &&& not16 (1 <<< (i / 2)) < 65536 :=
        lt_of_le_of_lt Nat.and_le_left hs
      obtain ⟨t, ht, htb, htn⟩ :=
        ih hrest ⟨s.config &&& not16 (1 <<< (i / 2))⟩ hs'
      refine ⟨t, ?_, htb, ?_⟩
      · simp [Sam.writeSeq, hwrite, ht]
      · rw [htn]
        show _ = (match lastTouch (i :: rest) n with
          | some j => decide (j % 2 = 1)
          | none => s.config.testBit n)
        simp only [lastTouch]
        cases hlt : lastTouch rest n with
        | some j => simp
        | none =>
          simp only [Nat.testBit_and, testBit_not16, testBit_one_shift]
          by_cases hin : i / 2 = n
          · have hn16 : n < 16 := by omega
            simp [hin, heven, hn16]
          · by_cases hn16 : n < 16
            · simp [hin, hn16]
            · have : s.config.testBit n = false := by
                apply Nat.testBit_eq_false_of_lt
                calc s.config < 65536 := hs
                  _ = 2 ^ 16 := by norm_num
                  _ ≤ 2 ^ n := Nat.pow_le_pow_right (by norm_num) (by omega)
              simp [hin, hn16, this]
    · -- odd index sets the bit
      have hodd : i % 2 = 1 := by omega
      have hbeq : (i &&& 1 == 0) = false := by simp [hand, hodd]
      have hwrite : s.write i = some ⟨s.config ||| 1 <<< (i / 2)⟩ := by
        simp [Sam.write, Nat.not_le.mpr hi, hbeq]
        exact fun hc => absurd hc (by omega)
      have hs' : s.config ||| 1 <<< (i / 2) < 65536 := by
        have := Nat.or_lt_two_pow (n := 16) (by simpa using hs) (by simpa using hval)
        simpa using this
      obtain ⟨t, ht, htb, htn⟩ := ih hrest ⟨s.config ||| 1 <<< (i / 2)⟩ hs'
      refine ⟨t, ?_, htb, ?_⟩
      · simp [Sam.writeSeq, hwrite, ht]
      · rw [htn]
        show _ = (match lastTouch (i :: rest) n with
          | some j => decide (j % 2 = 1)
          | none => s.config.testBit n)
        simp only [lastTouch]
        cases hlt : lastTouch rest n with
        | some j => simp
        | none =>
          simp only [Nat.testBit_or, testBit_one_shift]
          by_cases hin : i / 2 = n
          · simp [hin, hodd]
          · simp [hin]

/-- C1: applying any sequence of SAM writes, all indices below 32, to a
fresh SAM (`config = 0`) leaves config bit `n` set exactly when some index
`i` of the sequence has `i >> 1 = n` and the last such index is odd; a bit
touched by no index stays 0. -/
theorem c1_sam_write_sequence (xs : List Nat) (h : ∀ i ∈ xs, i < 32) (n : Nat) :
    ∃ t, Sam.new.writeSeq xs = some t ∧
      t.config.testBit n =
        (match lastTouch xs n with
         | some j => decide (j % 2 = 1)
         | none => false) := by
  obtain ⟨t, ht, _, htn⟩ := sam_writeSeq_spec xs h Sam.new (by decide) n
  refine ⟨t, ht, ?_⟩
  rw [htn]
  cases lastTouch xs n <;> simp [Sam.new]

/-- Witness for C1 at the sequence `[3, 2, 5]` and bit 2. -/
theorem c1_sam_write_sequence_witness :
    ∃ t, Sam.new.writeSeq [3, 2, 5] = some t ∧
      t.config.testBit 2 =
        (match lastTouch [3, 2, 5] 2 with
         | some j => decide (j % 2 = 1)
         | none => false) :=
  c1_sam_write_sequence [3, 2, 5] (by decide) 2

/-- Embeds `struct PiaSide` (src/pia.rs): one side of a PIA chip.  The
fields hold `u8` register values and the two boolean control lines. -/
structure PiaSide where
  cr : Nat
  ir : Nat
  or : Nat
  ddr : Nat
  c1 : Bool
  c2 : Bool
deriving DecidableEq

/-- Embeds `PiaSide::default()`: all registers zero, both lines low. -/
def PiaSide.init : PiaSide := ⟨0, 0, 0, 0, false, false⟩

/-- Embeds `PiaSide::manual_c2_trigger` (src/pia.rs). -/
def PiaSide.manual_c2_trigger (s : PiaSide) : Bool := s.cr &&& 0x30 == 0x30

/-- Embeds `PiaSide::set_c2` (src/pia.rs): only a rising edge is observed,
and only when C2 is not under manual output control. -/
def PiaSide.set_c2 (s : PiaSide) (c2 : Bool) : PiaSide :=
  if c2 && !s.c2 && !s.manual_c2_trigger then { s with cr := s.cr ||| 0x40, c2 := c2 }
  else { s with c2 := c2 }

/-- Embeds `PiaSide::set_c1` (src/pia.rs). -/
def PiaSide.set_c1 (s : PiaSide) (c1 : Bool) : PiaSide :=
  if c1 && !s.c1 then { s with cr := s.cr ||| 0x80, c1 := c1 }
  else { s with c1 := c1 }

/-- Embeds `PiaSide::write_control` (src/pia.rs): bits 6-7 are read-only. -/
def PiaSide.write_control (s : PiaSide) (b : Nat) : PiaSide :=
  let s := { s with cr := (b &&& 0x3f) ||| (s.cr &&& 0xc0) }
  if s.manual_c2_trigger then s.set_c2 (s.cr &&& 8 == 8) else s

/-- Embeds `PiaSide::read_control` (src/pia.rs): the flag bits clear on read. -/
def PiaSide.read_control (s : PiaSide) : Nat × PiaSide :=
  (s.cr, { s with cr := s.cr &&& 0x3f })

/-- Embeds `PiaSide::pr_selected` (src/pia.rs). -/
def PiaSide.pr_selected (s : PiaSide) : Bool := s.cr &&& 4 == 4

/-- Embeds `PiaSide::write_data` (src/pia.rs). -/
def PiaSide.write_data (s : PiaSide) (b : Nat) : PiaSide :=
  if s.pr_selected then { s with or := b &&& s.ddr } else { s with ddr := b }

/-- Embeds `PiaSide::read_data` (src/pia.rs). -/
def PiaSide.read_data (s : PiaSide) : Nat :=
  if s.pr_selected then s.or &&& s.ddr ||| s.ir &&& not8 s.ddr else s.ddr

/-- Embeds `PiaSide::read_output` (src/pia.rs): DDR controls which bits of
the output register are seen; input bits read as 1. -/
def PiaSide.read_output (s : PiaSide) : Nat := (s.or &&& s.ddr) ||| not8 s.ddr

/-- Embeds `PiaSide::write` (src/pia.rs). -/
def PiaSide.write (s : PiaSide) (index b : Nat) : PiaSide :=
  if index &&& 1 == 1 then s.write_control b else s.write_data b

/-- Embeds `PiaSide::read` (src/pia.rs). -/
def PiaSide.read (s : PiaSide) (index : Nat) : Nat × PiaSide :=
  if index &&& 1 == 1 then s.read_control else (s.read_data, s)

/-- Embeds `PiaSide::consume_interrupt` (src/pia.rs): returns whether an
interrupt fires and the side with the consumed lines reset. -/
def PiaSide.consume_interrupt (s : PiaSide) : Bool × PiaSide :=
  let p1 : Bool × PiaSide :=
    if s.c1 && (s.cr &&& 1 == 1) then (true, { s with c1 := false }) else (false, s)
  let s1 := p1.snd
  if s1.c2 && (s1.cr &&& 0x28 == 0x8) then (true, { s1 with c2 := false })
  else (p1.fst, s1)

/-- Counterexample state for C5: CR has bits 3 and 4 set (`0x18`) and C2
has risen. -/
def piaSideCx : PiaSide := ⟨0x18, 0, 0, 0, false, true⟩

/-- C5 counterexample: the claim predicts `consume_interrupt` fires only
when CR bits 3..5 equal `0b001`; here CR bits 3..5 are `0b011`
(`cr = 0x18`) with C2 risen, yet the code fires (it never tests bit 4). -/
theorem c5_counterexample :
    (piaSideCx.consume_interrupt).fst = true ∧
      ¬((piaSideCx.c1 && (piaSideCx.cr &&& 1 == 1)) ||
        (piaSideCx.c2 && ((piaSideCx.cr >>> 3) &&& 7 == 1))) = true := by
  decide

/-- C5 (amended): `consume_interrupt` returns true exactly when C1 has
risen with CR bit 0 set, or C2 has risen with CR bit 3 set and CR bit 5
clear (`cr & 0x28 == 0x08`; bit 4 is not examined); the fired line(s) are
cleared and every register and the other line are left unchanged. -/
theorem c5_consume_interrupt (s : PiaSide) :
    (s.consume_interrupt).fst =
        ((s.c1 && (s.cr &&& 1 == 1)) || (s.c2 && (s.cr &&& 0x28 == 0x8))) ∧
    (s.consume_interrupt).snd.c1 = (s.c1 && !(s.cr &&& 1 == 1)) ∧
    (s.consume_interrupt).snd.c2 = (s.c2 && !(s.cr &&& 0x28 == 0x8)) ∧
    (s.consume_interrupt).snd.cr = s.cr ∧
    (s.consume_interrupt).snd.ir = s.ir ∧
    (s.consume_interrupt).snd.or = s.or ∧
    (s.consume_interrupt).snd.ddr = s.ddr := by
  obtain ⟨cr, ir, orr, ddr, c1, c2⟩ := s
  cases c1 <;> cases c2 <;>
    by_cases hA : cr % 2 = 1 <;>
      by_cases hB : cr &&& 0x28 = 0x8 <;>
        simp [PiaSide.consume_interrupt, hA, hB, Nat.and_one_is_mod]

/-- Embeds `struct Pia1` (src/pia.rs).  `ab0`/`ab1` are `ab[0]`/`ab[1]`;
the mpsc sender is omitted — emitted `AudioSample` data values are instead
returned by `Pia1.write` as a list of rationals (the `f32` arithmetic
`((x >> 2) as f32 - 31.0) / 32.0` is exact for the 6-bit values involved). -/
structure Pia1 where
  ab0 : PiaSide
  ab1 : PiaSide
  sound_enabled : Bool
  dac_sel_a : Bool
  dac_sel_b : Bool
  last_bit_sound : Bool
deriving DecidableEq

/-- Side selection `self.ab[idx]` for `Pia1`. -/
def Pia1.abGet (p : Pia1) (idx : Nat) : PiaSide := if idx = 0 then p.ab0 else p.ab1

/-- Replaces side `idx` of a `Pia1`. -/
def Pia1.abSet (p : Pia1) (idx : Nat) (s : PiaSide) : Pia1 :=
  if idx = 0 then { p with ab0 := s } else { p with ab1 := s }

/-- Embeds `Pia1::new` (src/pia.rs). -/
def Pia1.init : Pia1 := ⟨PiaSide.init, PiaSide.init, false, false, false, false⟩

/-- Embeds `Pia1::set_dac_mux` (src/pia.rs). -/
def Pia1.set_dac_mux (p : Pia1) (a b : Bool) : Pia1 :=
  { p with dac_sel_a := a, dac_sel_b := b }

/-- Embeds `<Pia1 as Pia>::read` (src/pia.rs): side `(reg_num >> 1) & 1`
is read with index `reg_num`. -/
def Pia1.read (p : Pia1) (reg_num : Nat) : Nat × Pia1 :=
  let idx := (reg_num >>> 1) &&& 1
  let r := (p.abGet idx).read reg_num
  (r.fst, p.abSet idx r.snd)

/-- Embeds `<Pia1 as Pia>::write` (src/pia.rs).  The returned list holds
the data of the `AudioSample`s sent on the audio channel by this write. -/
def Pia1.write (p : Pia1) (reg_num data : Nat) : Pia1 × List ℚ :=
  let i := reg_num % 4
  let idx := (i >>> 1) &&& 1
  let p1 := p.abSet idx ((p.abGet idx).write reg_num data)
  if i = 0 then
    if p1.sound_enabled && !p1.dac_sel_a && !p1.dac_sel_b then
      (p1, [(((p1.ab0.read_output >>> 2 : Nat) : ℚ) - 31) / 32])
    else (p1, [])
  else if i = 2 then
    let bit := p1.ab1.read_output &&& 2 == 2
    if bit != p1.last_bit_sound then
      ({ p1 with last_bit_sound := bit }, [if bit then (1 / 2 : ℚ) else (-1 / 2 : ℚ)])
    else ({ p1 with last_bit_sound := bit }, [])
  else if i = 3 then ({ p1 with sound_enabled := data &&& 8 == 8 }, [])
  else (p1, [])

/-- Embeds `struct Pia0` (src/pia.rs).  The two host-key lookup maps and
the `Arc<Mutex<Pia1>>` back-reference are omitted: the maps only matter to
`update_keyboard`, and the `Pia1` partner is passed explicitly instead. -/
structure Pia0 where
  ab0 : PiaSide
  ab1 : PiaSide
  col : Nat → Nat
  joy_x : Nat
  joy_y : Nat
  joy_sw_1 : Bool
  joy_sw_2 : Bool

/-- Side selection `self.ab[idx]` for `Pia0`. -/
def Pia0.abGet (p : Pia0) (idx : Nat) : PiaSide := if idx = 0 then p.ab0 else p.ab1

/-- Replaces side `idx` of a `Pia0`. -/
def Pia0.abSet (p : Pia0) (idx : Nat) (s : PiaSide) : Pia0 :=
  if idx = 0 then { p with ab0 := s } else { p with ab1 := s }

/-- Embeds `Pia0::new` (src/pia.rs): columns all `0xff`, joysticks centred. -/
def Pia0.init : Pia0 := ⟨PiaSide.init, PiaSide.init, fun _ => 0xff, 0x1f, 0x1f, false, false⟩

/-- Embeds the `for i in 0..8` loop of `Pia0::strobe_keyboard`: `fuel`
counts the remaining iterations, so iteration `i` sees column `8 - fuel`.
Returns the accumulated `com` and the shifted-out `cols`. -/
def strobeLoop (col : Nat → Nat) : Nat → Nat → Nat → Nat × Nat
  | 0, cols, com => (com, cols)
  | k + 1, cols, com =>
    strobeLoop col k (cols >>> 1) (if cols &&& 1 == 1 then com ||| col (8 - (k + 1)) else com)

/-- Embeds `Pia0::strobe_keyboard` (src/pia.rs).  Note the source shifts
`cols` to zero inside the loop, so the joystick masks `!cols` are applied
to the post-loop value, exactly as the Rust does. -/
def Pia0.strobe_keyboard (p : Pia0) : Pia0 :=
  let r := if not8 p.ab1.read_output ≠ 0
           then strobeLoop p.col 8 (not8 p.ab1.read_output) 0
           else (0, not8 p.ab1.read_output)
  let com := r.fst
  let cols := r.snd
  let com := if p.joy_sw_1 then com ||| (0x3 &&& not8 cols) else com
  let com := if p.joy_sw_2 then com ||| (0xc &&& not8 cols) else com
  { p with ab0 := { p.ab0 with ir := not8 com } }

/-- Embeds `<Pia0 as Pia>::write` (src/pia.rs): the side write uses
`i = reg_num % 4`; control-register writes propagate the C2 lines to the
partner `Pia1` as the DAC mux bits; writes to register 2 strobe the
keyboard. -/
def Pia0.write (p0 : Pia0) (p1 : Pia1) (reg_num data : Nat) : Pia0 × Pia1 :=
  let i := reg_num % 4
  let idx := (i >>> 1) &&& 1
  let p0 := p0.abSet idx ((p0.abGet idx).write i data)
  if i = 1 ∨ i = 3 then (p0, p1.set_dac_mux p0.ab0.c2 p0.ab1.c2)
  else if i = 2 then (p0.strobe_keyboard, p1)
  else (p0, p1)

/-- Embeds `<Pia0 as Pia>::read` (src/pia.rs).  Reading register 0 first
refreshes IR bit 7 from the joystick comparator; `pia1.read(0)` does not
change the partner's state (register 0 reads are pure), so the partner is
passed by value. -/
def Pia0.read (p0 : Pia0) (p1 : Pia1) (reg_num : Nat) : Nat × Pia0 :=
  let i := reg_num % 4
  let p0 :=
    if i = 0 then
      let joy_val := if p0.ab0.c2 then p0.joy_y else p0.joy_x
      let dac := (p1.read 0).fst >>> 2
      if joy_val < dac then { p0 with ab0 := { p0.ab0 with ir := p0.ab0.ir &&& 0x7f } }
      else { p0 with ab0 := { p0.ab0 with ir := p0.ab0.ir ||| 0x80 } }
    else p0
  let idx := (i >>> 1) &&& 1
  let r := (p0.abGet idx).read reg_num
  (r.fst, p0.abSet idx r.snd)

/-- C6: a write to PIA1 register 0 emits exactly one audio sample iff
sound is enabled and both DAC-mux bits are clear, and its data is
`((v >> 2) - 31) / 32` where `v` is side A's output register seen through
the DDR mask (`read_output`) after the write; otherwise nothing is
emitted.  The write never changes the enable or mux flags. -/
theorem c6_pia1_dac_write (p : Pia1) (reg_num data : Nat) (h : reg_num % 4 = 0) :
    (p.write reg_num data).snd =
      (if p.sound_enabled && !p.dac_sel_a && !p.dac_sel_b
       then [((((p.write reg_num data).fst.ab0.read_output >>> 2 : Nat) : ℚ) - 31) / 32]
       else []) ∧
    (p.write reg_num data).fst.sound_enabled = p.sound_enabled ∧
    (p.write reg_num data).fst.dac_sel_a = p.dac_sel_a ∧
    (p.write reg_num data).fst.dac_sel_b = p.dac_sel_b := by
  by_cases hc : (p.sound_enabled && !p.dac_sel_a && !p.dac_sel_b) = true <;>
    simp [Pia1.write, Pia1.abSet, Pia1.abGet, h, hc]

/-- Witness for C6: sound enabled, mux clear, write `0xff` to register 0
with all DDR bits output. -/
theorem c6_pia1_dac_write_witness :
    ((0 : Nat) % 4 = 0) ∧
    ((Pia1.write ⟨⟨4, 0, 0, 0xff, false, false⟩, PiaSide.init, true, false, false, false⟩
        0 0xff).snd =
      [((((Pia1.write ⟨⟨4, 0, 0, 0xff, false, false⟩, PiaSide.init, true, false, false,
            false⟩ 0 0xff).fst.ab0.read_output >>> 2 : Nat) : ℚ) - 31) / 32]) := by
  refine ⟨rfl, ?_⟩
  have h := c6_pia1_dac_write
    ⟨⟨4, 0, 0, 0xff, false, false⟩, PiaSide.init, true, false, false, false⟩ 0 0xff rfl
  simpa using h.1

/-- Embeds `enum AccessType` (src/memory.rs). -/
inductive AccessType where
  | Program
  | UserStack
  | SystemStack
  | Generic
  | System
deriving DecidableEq

/-- Modelled from the spec: the 6809 register file `registers::Set`
(registers.rs is not under src/): "Eight-bit A, B, DP, CC. Sixteen-bit
X, Y, U, S, PC."  `D` is the aliased view (A high, B low), exposed as
`Regs.d`. -/
structure Regs where
  a : Nat
  b : Nat
  dp : Nat
  cc : Nat
  x : Nat
  y : Nat
  u : Nat
  s : Nat
  pc : Nat
deriving DecidableEq

/-- Modelled from the spec: `D is an aliased view of (A high, B low)`. -/
def Regs.d (r : Regs) : Nat := (r.a <<< 8) ||| r.b

/-- Embeds the bus-relevant state of `struct Core` (src/core.rs):
the 64 KiB byte array, `ram_top`, the SAM, both PIAs, the register file
and the CWAI/SYNC flags.  The optional ACIA is modelled in its absent
configuration (`acia == None` in `Core::new`), in which both the read and
write paths fall straight through to address decoding; the debug
watch-hit bookkeeping has no effect on bus data and is omitted. -/
structure Core where
  raw_ram : Nat → Nat
  ram_top : Nat
  sam : Sam
  pia0 : Pia0
  pia1 : Pia1
  reg : Regs
  in_cwai : Bool
  in_sync : Bool

/-- Pointwise update of the RAM byte array. -/
def updateRam (f : Nat → Nat) (addr v : Nat) : Nat → Nat :=
  fun x => if x = addr then v else f x

/-- Embeds `Core::_read_u8` (src/memory.rs) for a `u16` address
(`addr ≤ 0xffff`).  PIA reads can change PIA state through the mutex, so
the (possibly updated) core is returned with the byte. -/
def Core.read_u8 (c : Core) (_at : AccessType) (addr : Nat) : Nat × Core :=
  if addr ≤ 0xfeff then (c.raw_ram addr, c)
  else if addr ≤ 0xff1f then
    let r := c.pia0.read c.pia1 (addr - 0xff00)
    (r.fst, { c with pia0 := r.snd })
  else if addr ≤ 0xff3f then
    let r := c.pia1.read (addr - 0xff20)
    (r.fst, { c with pia1 := r.snd })
  else if addr < 0xffc0 then (0, c)
  else if addr ≤ 0xffdf then (0, c)
  else if addr ≤ 0xffff then (c.raw_ram (addr - 0x4000), c)
  else (0, c)

/-- Embeds `Core::_write_u8` (src/memory.rs) for a `u16` address.  The
`panic!` reachable through `Sam::write` becomes `none`; the returned list
carries any audio samples sent by a PIA1 write. -/
def Core.write_u8 (c : Core) (at_ : AccessType) (addr data : Nat) :
    Option (Core × List ℚ) :=
  if addr ≤ 0xfeff then
    if c.ram_top < addr ∧ at_ ≠ .System then some (c, [])
    else some ({ c with raw_ram := updateRam c.raw_ram addr data }, [])
  else if addr ≤ 0xff1f then
    let r := c.pia0.write c.pia1 (addr - 0xff00) data
    some ({ c with pia0 := r.fst, pia1 := r.snd }, [])
  else if addr ≤ 0xff3f then
    let r := c.pia1.write (addr - 0xff20) data
    some ({ c with pia1 := r.fst }, r.snd)
  else if addr < 0xffc0 then some (c, [])
  else if addr ≤ 0xffdf then
    match c.sam.write (addr - 0xffc0) with
    | none => none
    | some s => some ({ c with sam := s }, [])
  else if addr ≤ 0xffff then
    if c.ram_top < addr ∧ at_ ≠ .System then some (c, [])
    else some ({ c with raw_ram := updateRam c.raw_ram (addr - 0x4000) data }, [])
  else some (c, [])

/-- Concrete register file with every register zero. -/
def regsZero : Regs := ⟨0, 0, 0, 0, 0, 0, 0, 0, 0⟩

/-- Concrete core used by witnesses and counterexamples: zeroed 64 KiB
RAM, `ram_top = 0x7fff` (the typical configuration), freshly constructed
devices. -/
def coreWitness : Core :=
  ⟨fun _ => 0, 0x7fff, Sam.new, Pia0.init, Pia1.init, regsZero, false, false⟩

/-- C2: in the ROM-shadow region (`ram_top < addr ≤ 0xfeff`) a `System`
write of `b` followed by a read of `addr` under any access type returns
`b`, while a `Program` write leaves the core unchanged, so a subsequent
read returns the previously stored byte. -/
theorem c2_rom_shadow (c : Core) (at2 : AccessType) (addr b : Nat)
    (h1 : c.ram_top < addr) (h2 : addr ≤ 0xfeff) :
    (∃ c', c.write_u8 .System addr b = some (c', []) ∧
      (c'.read_u8 at2 addr).fst = b) ∧
    c.write_u8 .Program addr b = some (c, []) ∧
    (c.read_u8 at2 addr).fst = c.raw_ram addr := by
  refine ⟨⟨{ c with raw_ram := updateRam c.raw_ram addr b }, ?_, ?_⟩, ?_, ?_⟩
  · simp [Core.write_u8, h2]
  · simp [Core.read_u8, h2, updateRam]
  · simp [Core.write_u8, h2, h1]
  · simp [Core.read_u8, h2]

/-- Witness for C2: `ram_top = 0x7fff`, `addr = 0x9000`, `b = 0xab`, on a
zeroed core read back with `Generic` access. -/
theorem c2_rom_shadow_witness :
    (coreWitness.ram_top < 0x9000 ∧ (0x9000 : Nat) ≤ 0xfeff) ∧
    (∃ c', coreWitness.write_u8 .System 0x9000 0xab = some (c', []) ∧
      (c'.read_u8 .Generic 0x9000).fst = 0xab) ∧
    coreWitness.write_u8 .Program 0x9000 0xab = some (coreWitness, []) ∧
    (coreWitness.read_u8 .Generic 0x9000).fst = coreWitness.raw_ram 0x9000 :=
  ⟨⟨by norm_num [coreWitness], by norm_num⟩,
    c2_rom_shadow coreWitness .Generic 0x9000 0xab (by norm_num [coreWitness]) (by norm_num)⟩

lemma sam_write_some (s : Sam) (i : Nat) (h : i < 32) : ∃ t, s.write i = some t := by
  unfold Sam.write
  rw [if_neg (by omega)]
  by_cases hp : (i &&& 1 == 0) = true
  · exact ⟨_, by rw [if_pos hp]⟩
  · exact ⟨_, by rw [if_neg hp]⟩

/-- C3 counterexample: on the typical core (`ram_top = 0x7fff`, RAM
zeroed) a `Program`-access write of 1 at `0xffe0` is silently dropped
(the vector window sits above `ram_top`), so the subsequent read returns
0, not the written byte — refuting the claim's "every access type". -/
theorem c3_counterexample :
    coreWitness.write_u8 .Program 0xffe0 1 = some (coreWitness, []) ∧
      (coreWitness.read_u8 .Program 0xffe0).fst ≠ 1 :=
  ⟨rfl, by decide⟩

/-- C3 (amended): for every address in `[0xffe0, 0xffff]` and byte `b`, a
bus write of `b` with `System` access followed by a read of `addr` under
any access type returns `b`, and a read of `addr - 0x4000` also returns
`b`: the vector window is remapped to `0xbfe0..=0xbfff` for reads and for
`System` writes, while non-`System` writes are dropped whenever
`addr > ram_top`. -/
theorem c3_vector_window (c : Core) (at2 : AccessType) (addr b : Nat)
    (h1 : 0xffe0 ≤ addr) (h2 : addr ≤ 0xffff) :
    ∃ c', c.write_u8 .System addr b = some (c', []) ∧
      (c'.read_u8 at2 addr).fst = b ∧
      (c'.read_u8 at2 (addr - 0x4000)).fst = b := by
  refine ⟨{ c with raw_ram := updateRam c.raw_ram (addr - 0x4000) b }, ?_, ?_, ?_⟩
  · unfold Core.write_u8
    rw [if_neg (by omega), if_neg (by omega), if_neg (by omega), if_neg (by omega),
      if_neg (by omega), if_pos h2, if_neg (by simp)]
  · unfold Core.read_u8
    rw [if_neg (by omega), if_neg (by omega), if_neg (by omega), if_neg (by omega),
      if_neg (by omega), if_pos h2]
    simp [updateRam]
  · unfold Core.read_u8
    rw [if_pos (show addr - 0x4000 ≤ 0xfeff by omega)]
    simp [updateRam]

/-- Witness for C3 (amended) at `addr = 0xfff3`, `b = 0x5a`. -/
theorem c3_vector_window_witness :
    ((0xffe0 : Nat) ≤ 0xfff3 ∧ (0xfff3 : Nat) ≤ 0xffff) ∧
    ∃ c', coreWitness.write_u8 .System 0xfff3 0x5a = some (c', []) ∧
      (c'.read_u8 .UserStack 0xfff3).fst = 0x5a ∧
      (c'.read_u8 .UserStack (0xfff3 - 0x4000)).fst = 0x5a :=
  ⟨⟨by norm_num, by norm_num⟩,
    c3_vector_window coreWitness .UserStack 0xfff3 0x5a (by norm_num) (by norm_num)⟩

/-- C10: `Sam::write` panics exactly when its index is 32 or more, yet
every SAM write dispatched by the bus uses `index = addr - 0xffc0` with
`addr` in `0xffc0..=0xffdf`, so no bus write of any byte at any `u16`
address can reach the panic. -/
theorem c10_sam_panic_unreachable :
    (∀ (s : Sam) (i : Nat), 32 ≤ i → s.write i = none) ∧
    (∀ (c : Core) (at_ : AccessType) (addr data : Nat), addr ≤ 0xffff →
      ∃ r, c.write_u8 at_ addr data = some r) := by
  constructor
  · intro s i hi
    simp [Sam.write, hi]
  · intro c at_ addr data _
    unfold Core.write_u8
    by_cases h1 : addr ≤ 0xfeff
    · rw [if_pos h1]
      split_ifs <;> exact ⟨_, rfl⟩
    · rw [if_neg h1]
      by_cases h2 : addr ≤ 0xff1f
      · rw [if_pos h2]; exact ⟨_, rfl⟩
      · rw [if_neg h2]
        by_cases h3 : addr ≤ 0xff3f
        · rw [if_pos h3]; exact ⟨_, rfl⟩
        · rw [if_neg h3]
          by_cases h4 : addr < 0xffc0
          · rw [if_pos h4]; exact ⟨_, rfl⟩
          · rw [if_neg h4]
            by_cases h5 : addr ≤ 0xffdf
            · rw [if_pos h5]
              obtain ⟨t, ht⟩ := sam_write_some c.sam (addr - 0xffc0) (by omega)
              rw [ht]
              exact ⟨_, rfl⟩
            · rw [if_neg h5]
              by_cases h6 : addr ≤ 0xffff
              · rw [if_pos h6]
                split_ifs <;> exact ⟨_, rfl⟩
              · rw [if_neg h6]; exact ⟨_, rfl⟩

/-- Witness for C10: the panic at index 32, and a dropped-yet-successful
bus write at the top of the SAM window. -/
theorem c10_sam_panic_unreachable_witness :
    ((32 : Nat) ≤ 32 ∧ Sam.new.write 32 = none) ∧
    ((0xffdf : Nat) ≤ 0xffff ∧
      ∃ r, coreWitness.write_u8 .Generic 0xffdf 0x77 = some r) :=
  ⟨⟨by norm_num, c10_sam_panic_unreachable.1 Sam.new 32 (by norm_num)⟩,
    ⟨by norm_num,
      c10_sam_panic_unreachable.2 coreWitness .Generic 0xffdf 0x77 (by norm_num)⟩⟩

/-- Embeds `BLOCK_DIM_Y` (src/vdg.rs). -/
def BLOCK_DIM_Y : Nat := 12

/-- Embeds `struct Char` (src/vdg.rs): a font index and an inversion flag. -/
structure Char where
  font_index : Nat
  inverted : Bool
deriving DecidableEq

/-- Embeds `Char::try_from_ascii` (src/vdg.rs). -/
def Char.try_from_ascii (byte : Nat) : Option Char :=
  let iOpt : Option Nat :=
    if byte ≤ 0x1f then some 0x20
    else if byte ≤ 0x3f then some byte
    else if byte ≤ 0x7f then some (byte &&& 0x1f)
    else none
  match iOpt with
  | none => none
  | some i => some ⟨i * BLOCK_DIM_Y, decide (0x5f < byte)⟩

/-- C7 counterexample: at byte `0x40` the claim demands the inverted flag,
but the source only inverts for bytes above `0x5f`, so `0x40` maps to
glyph 0 without inversion. -/
theorem c7_counterexample :
    Char.try_from_ascii 0x40 = some ⟨(0x40 &&& 0x1f) * BLOCK_DIM_Y, false⟩ := by
  decide

/-- C7 (amended): bytes `0x00..=0x1f` map to the space glyph, `0x20..=0x3f`
map to glyph `b` directly, `0x40..=0x5f` map to glyph `b & 0x1f` without
inversion, `0x60..=0x7f` map to glyph `b & 0x1f` with inversion, and bytes
`0x80` and above map to no character (the stored `font_index` is the glyph
index times the 12-row glyph height). -/
theorem c7_ascii_char (b : Nat) :
    Char.try_from_ascii b =
      (if b ≤ 0x1f then some ⟨0x20 * BLOCK_DIM_Y, false⟩
       else if b ≤ 0x3f then some ⟨b * BLOCK_DIM_Y, false⟩
       else if b ≤ 0x5f then some ⟨(b &&& 0x1f) * BLOCK_DIM_Y, false⟩
       else if b ≤ 0x7f then some ⟨(b &&& 0x1f) * BLOCK_DIM_Y, true⟩
       else none) := by
  unfold Char.try_from_ascii
  by_cases h1 : b ≤ 0x1f
  · simp [h1, show ¬ (0x5f < b) by omega]
  · by_cases h2 : b ≤ 0x3f
    · simp [h1, h2, show ¬ (0x5f < b) by omega]
    · by_cases h3 : b ≤ 0x5f
      · simp [h1, h2, h3, show b ≤ 0x7f by omega, show ¬ (0x5f < b) by omega]
      · by_cases h4 : b ≤ 0x7f
        · simp [h1, h2, h3, h4, show 0x5f < b by omega]
        · simp [h1, h2, h3, h4, show ¬ b ≤ 0x3f by omega]

/-- Embeds `struct AvgWindow` (src/sound.rs) over `ℚ`, the ring buffer as
a function from index to entry. -/
structure AvgWindow where
  ring : Nat → ℚ
  size : Nat
  head : Nat
  tail : Nat

/-- Embeds `AvgWindow::new` (src/sound.rs): zeroed ring. -/
def AvgWindow.new (size : Nat) : AvgWindow := ⟨fun _ => 0, size, 0, 0⟩

/-- Embeds `AvgWindow::push` (src/sound.rs). -/
def AvgWindow.push (w : AvgWindow) (t : ℚ) : AvgWindow :=
  let tail := (w.tail + 1) % w.size
  let head := (tail + 1) % w.size
  ⟨fun i => if i = tail then t else w.ring i, w.size, head, tail⟩

/-- Embeds `AvgWindow::avg` (src/sound.rs): sum of the ring starting at
`head`, divided by `(size & 0xffff) as u16`. -/
def AvgWindow.avg (w : AvgWindow) : ℚ :=
  ((List.range w.size).foldl (fun sum i => sum + w.ring ((i + w.head) % w.size)) 0) /
    ((w.size &&& 0xffff : Nat) : ℚ)

/-- Embeds `SampleQue` (src/sound.rs) restricted to its write side: `xs`
holds the samples written so far (`q[0..tail]`), `cap` is `q.len()`; the
read cursor plays no part in `write_sample`. -/
structure SampleQue where
  cap : Nat
  xs : List ℚ

/-- Embeds the pipeline state touched by `AudioPipeline::write_sample`
(src/sound.rs); the receiver and the timing fields feed only the thread
loop. -/
structure AudioPipeline where
  gain : ℚ
  avg_window : AvgWindow
  last_written : ℚ
  wrote_last_cycle : Bool
  silent_buffer : Bool
  wrote_sound : Bool

/-- Embeds the construction of the pipeline in `AudioPipeline::new`
(src/sound.rs): gain `0.95`, a fresh 2-slot averaging window, last
written sample zero, silent buffer. -/
def AudioPipeline.init : AudioPipeline :=
  ⟨19 / 20, AvgWindow.new 2, 0, false, true, false⟩

/-- Embeds `AudioPipeline::write_sample` (src/sound.rs): apply gain,
limit to `[-0.95, 0.95]`, smooth through the averaging window, append;
returns the count of samples written (0 when the buffer is full). -/
def AudioPipeline.write_sample (p : AudioPipeline) (sample : ℚ) (buf : SampleQue) :
    AudioPipeline × SampleQue × Nat :=
  if buf.cap - buf.xs.length = 0 then (p, buf, 0)
  else
    let d := sample * p.gain
    let d := min d (95 / 100)
    let d := max d (-(95 / 100))
    let w := p.avg_window.push d
    let d := w.avg
    let buf : SampleQue := ⟨buf.cap, buf.xs ++ [d]⟩
    (⟨p.gain, w, d, true,
      (if d ≠ 0 then false else p.silent_buffer),
      (if d ≠ 0 then true else p.wrote_sound)⟩, buf, 1)

/-- Folds `write_sample` over a list of incoming sample values. -/
def AudioPipeline.writeSeq (p : AudioPipeline) (buf : SampleQue) : List ℚ → AudioPipeline × SampleQue
  | [] => (p, buf)
  | x :: rest =>
    let r := p.write_sample x buf
    r.fst.writeSeq r.snd.fst rest

/-- Gain-scale and clamp one incoming sample, as `write_sample` does
before smoothing. -/
def clampGain (x : ℚ) : ℚ := max (min (x * (19 / 20)) (95 / 100)) (-(95 / 100))

/-- Expected buffer contents: each output is the average of the current
clamped-scaled input and the previous one (zero before the first). -/
def rollAvg : ℚ → List ℚ → List ℚ
  | _, [] => []
  | prev, x :: rest => (prev + clampGain x) / 2 :: rollAvg (clampGain x) rest

/-- Invariant tying the averaging window to the previously pushed value. -/
def WindowInv (w : AvgWindow) (prev : ℚ) : Prop :=
  w.size = 2 ∧ w.tail < 2 ∧ w.ring w.tail = prev

lemma windowInv_new : WindowInv (AvgWindow.new 2) 0 := by
  refine ⟨rfl, by simp [AvgWindow.new], rfl⟩

lemma push_avg (w : AvgWindow) (prev d : ℚ) (h : WindowInv w prev) :
    (w.push d).avg = (prev + d) / 2 ∧ WindowInv (w.push d) d := by
  obtain ⟨hs, ht, hr⟩ := h
  constructor
  · show ((List.range (w.push d).size).foldl _ 0) / _ = _
    have hsz : (w.push d).size = 2 := hs
    have htail : (w.push d).tail = (w.tail + 1) % 2 := by simp [AvgWindow.push, hs]
    have hhead : (w.push d).head = ((w.tail + 1) % 2 + 1) % 2 := by simp [AvgWindow.push, hs]
    rw [hsz]
    have hrange : List.range 2 = [0, 1] := rfl
    rw [hrange]
    simp only [List.foldl]
    have h1 : (0 + (w.push d).head) % 2 = w.tail := by
      rw [hhead]; omega
    have h2 : (1 + (w.push d).head) % 2 = (w.tail + 1) % 2 := by
      rw [hhead]; omega
    have hv1 : (w.push d).ring w.tail = prev := by
      have : w.tail ≠ (w.tail + 1) % 2 := by omega
      simp [AvgWindow.push, hs, this]
      exact hr
    have hv2 : (w.push d).ring ((w.tail + 1) % 2) = d := by
      simp [AvgWindow.push, hs]
    rw [h1, h2, hv1, hv2]
    have h2c : (2 &&& 0xffff : Nat) = 2 := by decide
    rw [h2c]
    norm_num
  · refine ⟨hs, ?_, ?_⟩
    · simp [AvgWindow.push, hs]
      omega
    · simp [AvgWindow.push, hs]

lemma writeSeq_spec (xs : List ℚ) (p : AudioPipeline) (prev : ℚ) (buf : SampleQue)
    (hg : p.gain = 19 / 20) (hw : WindowInv p.avg_window prev) :
    (p.writeSeq buf xs).snd.xs = buf.xs ++ rollAvg prev (xs.take (buf.cap - buf.xs.length)) := by
  induction xs generalizing p prev buf with
  | nil => simp [AudioPipeline.writeSeq, rollAvg]
  | cons x rest ih =>
    by_cases hfull : buf.cap - buf.xs.length = 0
    · have hstep : p.write_sample x buf = (p, buf, 0) := by
        simp [AudioPipeline.write_sample, hfull]
      simp only [AudioPipeline.writeSeq, hstep]
      rw [ih p prev buf hg hw]
      simp [hfull]
    · have havg := push_avg p.avg_window prev
        (max (min (x * p.gain) (95 / 100)) (-(95 / 100))) hw
      have hclamp : max (min (x * p.gain) (95 / 100)) (-(95 / 100)) = clampGain x := by
        rw [hg]; rfl
      rw [hclamp] at havg
      have hstep : p.write_sample x buf =
          (⟨p.gain, p.avg_window.push (clampGain x), (prev + clampGain x) / 2, true,
            (if (prev + clampGain x) / 2 ≠ 0 then false else p.silent_buffer),
            (if (prev + clampGain x) / 2 ≠ 0 then true else p.wrote_sound)⟩,
           ⟨buf.cap, buf.xs ++ [(prev + clampGain x) / 2]⟩, 1) := by
        unfold AudioPipeline.write_sample
        rw [if_neg hfull]
        simp only [hclamp, havg.1]
      simp only [AudioPipeline.writeSeq, hstep]
      rw [ih ⟨p.gain, p.avg_window.push (clampGain x), (prev + clampGain x) / 2, true,
            (if (prev + clampGain x) / 2 ≠ 0 then false else p.silent_buffer),
            (if (prev + clampGain x) / 2 ≠ 0 then true else p.wrote_sound)⟩
          (clampGain x) ⟨buf.cap, buf.xs ++ [(prev + clampGain x) / 2]⟩ hg havg.2]
      have hl : buf.cap - (buf.xs ++ [(prev + clampGain x) / 2]).length
          = (buf.cap - buf.xs.length) - 1 := by
        simp; omega
      rw [hl]
      obtain ⟨k, hk⟩ : ∃ k, buf.cap - buf.xs.length = k + 1 :=
        ⟨buf.cap - buf.xs.length - 1, by omega⟩
      rw [hk]
      simp [rollAvg, List.take_succ_cons]

lemma clampGain_bounds (x : ℚ) : -(95 / 100) ≤ clampGain x ∧ clampGain x ≤ 95 / 100 := by
  unfold clampGain
  constructor
  · exact le_max_right _ _
  · exact max_le (min_le_right _ _) (by norm_num)

lemma rollAvg_bounds (xs : List ℚ) (prev : ℚ)
    (hp : -(95 / 100) ≤ prev ∧ prev ≤ 95 / 100) :
    ∀ v ∈ rollAvg prev xs, -(95 / 100) ≤ v ∧ v ≤ 95 / 100 := by
  induction xs generalizing prev with
  | nil => intro v hv; simp [rollAvg] at hv
  | cons x rest ih =>
    intro v hv
    simp only [rollAvg, List.mem_cons] at hv
    rcases hv with hv | hv
    · subst hv
      have hc := clampGain_bounds x
      constructor <;> [linarith [hp.1, hc.1]; linarith [hp.2, hc.2]]
    · exact ih (clampGain x) (clampGain_bounds x) v hv

/-- C9: starting from the pipeline's initial state with any empty source
buffer, feeding any sequence of input samples through `write_sample`
appends exactly the 2-sample rolling averages of the gain-scaled and
clamped inputs (zero seeds the window), and every appended value lies in
`[-0.95, 0.95]`.  This covers interpolation-synthesized samples, which go
through the same `write_sample`. -/
theorem c9_write_sample_bounded (xs : List ℚ) (cap : Nat) :
    (AudioPipeline.init.writeSeq ⟨cap, []⟩ xs).snd.xs = rollAvg 0 (xs.take cap) ∧
    ∀ v ∈ (AudioPipeline.init.writeSeq ⟨cap, []⟩ xs).snd.xs,
      -(95 / 100) ≤ v ∧ v ≤ 95 / 100 := by
  have h := writeSeq_spec xs AudioPipeline.init 0 ⟨cap, []⟩ rfl windowInv_new
  simp only [List.length_nil, Nat.sub_zero, List.nil_append] at h
  refine ⟨h, ?_⟩
  rw [h]
  exact rollAvg_bounds _ 0 (by norm_num)

/-- Modelled from the spec: the error kinds of §7 (error.rs is not under
src/): Syntax, Memory, Runtime, Test, Exit, General. -/
inductive ErrKind where
  | Syntax
  | Memory
  | Runtime
  | Test
  | Exit
  | General
deriving DecidableEq

/-- Wrapping 16-bit addition, as Rust `u16::overflowing_add` computes. -/
def u16add (a b : Nat) : Nat := (a + b) % 65536

/-- Wrapping 16-bit subtraction for `b ≤ 65535`, as `u16::overflowing_sub`. -/
def u16sub (a b : Nat) : Nat := (a + 65536 - b % 65536) % 65536

/-- Sign extension of a `u8` reinterpreted as `i8` and cast to `u16`
(`byte as i8 as u16` in the source). -/
def signExt8 (b : Nat) : Nat := if 0x80 ≤ b % 256 then 0xff00 ||| b % 256 else b % 256

/-- Embeds `Core::checked_pc_add` (src/runtime.rs): `u16::checked_add`
returns a Runtime error on overflow. -/
def checkedPcAdd (pc rhs : Nat) : Except ErrKind Nat :=
  if pc + rhs ≤ 0xffff then .ok (pc + rhs) else .error .Runtime

/-- Embeds `Core::_read_u16` (src/memory.rs): high byte first; the `u16`
increment wraps. -/
def Core.read_u16 (c : Core) (at_ : AccessType) (addr : Nat) : Nat × Core :=
  let r1 := c.read_u8 at_ addr
  let r2 := r1.snd.read_u8 at_ ((addr + 1) % 65536)
  ((r1.fst <<< 8) ||| r2.fst, r2.snd)

/-- Index-register selection by the `rr` field of an indexed post-byte
(`0 => X, 1 => Y, 2 => U, 3 => S`, as in src/runtime.rs). -/
def Regs.getIdx (l : Regs) (rr : Nat) : Nat :=
  if rr = 0 then l.x else if rr = 1 then l.y else if rr = 2 then l.u else l.s

/-- Writes back through the same `rr` selection. -/
def Regs.setIdx (l : Regs) (rr v : Nat) : Regs :=
  if rr = 0 then { l with x := v }
  else if rr = 1 then { l with y := v }
  else if rr = 2 then { l with u := v }
  else { l with s := v }

/-- Embeds the `AddressingMode::Indexed` arm of
`Core::process_addressing_mode` (src/runtime.rs).  `size0` is `inst.size`
on entry; the result carries the threaded core (reads can touch PIA
state), the updated working registers, the effective address `inst.ea`
and the final `inst.size`.  The operand-string formatting behind
`config::help_humans()` has no effect on these and is omitted. -/
def Core.processIndexed (c : Core) (live : Regs) (size0 : Nat) :
    Except ErrKind (Core × Regs × Nat × Nat) :=
  match checkedPcAdd live.pc size0 with
  | .error e => .error e
  | .ok a0 =>
    let r := c.read_u8 .Program a0
    let pb := r.fst
    let c := r.snd
    let size := size0 + 1
    let indirect := pb &&& 0b10010000 == 0b10010000
    let rr := (pb &&& 0b01100000) >>> 5
    let m := pb &&& 0x8f
    let inner : Except ErrKind (Core × Regs × Nat × Nat) :=
      if m ≤ 0b11111 then
        let offset := (pb &&& 0b11111) ||| (if pb &&& 0b10000 ≠ 0 then 0b11100000 else 0)
        .ok (c, live, u16add (live.getIdx rr) (signExt8 offset), size)
      else if m = 0b10000000 then
        if indirect then .error .Syntax
        else
          let ea := live.getIdx rr
          .ok (c, live.setIdx rr (u16add ea 1), ea, size)
      else if m = 0b10000001 then
        let ea := live.getIdx rr
        .ok (c, live.setIdx rr (u16add ea 2), ea, size)
      else if m = 0b10000010 then
        if indirect then .error .Syntax
        else
          let v := u16sub (live.getIdx rr) 1
          .ok (c, live.setIdx rr v, v, size)
      else if m = 0b10000011 then
        let v := u16sub (live.getIdx rr) 2
        .ok (c, live.setIdx rr v, v, size)
      else if m = 0b10000100 then
        .ok (c, live, live.getIdx rr, size)
      else if m = 0b10000101 then
        .ok (c, live, u16add (live.getIdx rr) (signExt8 live.b), size)
      else if m = 0b10000110 then
        .ok (c, live, u16add (live.getIdx rr) (signExt8 live.a), size)
      else if m = 0b10001000 then
        let r := c.read_u8 .Program (u16add live.pc size)
        .ok (r.snd, live, u16add (live.getIdx rr) (signExt8 r.fst), size + 1)
      else if m = 0b10001001 then
        let r := c.read_u16 .Program (u16add live.pc size)
        .ok (r.snd, live, u16add (live.getIdx rr) r.fst, size + 2)
      else if m = 0b10001011 then
        .ok (c, live, u16add (live.getIdx rr) live.d, size)
      else if m = 0b10001100 then
        let r := c.read_u8 .Program (u16add live.pc size)
        .ok (r.snd, live, u16add (u16add live.pc (size + 1)) (signExt8 r.fst), size + 1)
      else if m = 0b10001101 then
        let r := c.read_u16 .Program (u16add live.pc size)
        .ok (r.snd, live, u16add (u16add live.pc (size + 2)) r.fst, size + 2)
      else if m = 0b10001111 then
        let r := c.read_u16 .Program (u16add live.pc size)
        .ok (r.snd, live, r.fst, size + 2)
      else .error .Syntax
    match inner with
    | .error e => .error e
    | .ok (c, live, ea, size) =>
      if indirect then
        let r := c.read_u16 .Generic ea
        .ok (r.snd, live, r.fst, size)
      else .ok (c, live, ea, size)

/-- C8: an indexed post-byte whose indirect bit is set and whose mode
sub-field selects `,R+` (`0b0000`) or `,-R` (`0b0010`) resolves to a
Syntax error, for every register selector; post-byte `0b10010000` is such
a byte. -/
theorem c8_indirect_postinc_syntax (c : Core) (live : Regs) (size0 pb : Nat)
    (hpc : live.pc + size0 ≤ 0xffff)
    (hpb : (c.read_u8 .Program (live.pc + size0)).fst = pb)
    (hind : pb &&& 0b10010000 = 0b10010000)
    (hmode : pb &&& 0x8f = 0b10000000 ∨ pb &&& 0x8f = 0b10000010) :
    c.processIndexed live size0 = .error .Syntax := by
  have h0 : checkedPcAdd live.pc size0 = .ok (live.pc + size0) := by
    unfold checkedPcAdd
    rw [if_pos hpc]
  have hindb : (pb &&& 0b10010000 == 0b10010000) = true := by simp [hind]
  unfold Core.processIndexed
  rw [h0]
  simp only [hpb, hindb]
  rcases hmode with hm | hm
  · rw [hm]
    norm_num
  · rw [hm]
    norm_num

/-- Concrete core whose RAM is filled with the post-byte `0x90`. -/
def core90 : Core :=
  ⟨fun _ => 0x90, 0x7fff, Sam.new, Pia0.init, Pia1.init, regsZero, false, false⟩

/-- Witness for C8: post-byte `0b10010000` read at `pc + size = 1`. -/
theorem c8_indirect_postinc_syntax_witness :
    (regsZero.pc + 1 ≤ 0xffff ∧
      (core90.read_u8 .Program (regsZero.pc + 1)).fst = 0x90 ∧
      0x90 &&& 0b10010000 = 0b10010000 ∧ 0x90 &&& 0x8f = 0b10000000) ∧
    core90.processIndexed regsZero 1 = .error .Syntax :=
  ⟨⟨by norm_num [regsZero], by decide, by decide, by decide⟩,
    c8_indirect_postinc_syntax core90 regsZero 1 0x90 (by norm_num [regsZero])
      (by decide) (by decide) (Or.inl (by decide))⟩

/-- Embeds `enum InterruptType` (src/core.rs). -/
inductive InterruptType where
  | Reset
  | Nmi
  | Firq
  | Irq
  | Swi
  | Swi2
  | Swi3
deriving DecidableEq

/-- Embeds `InterruptType::vector` (src/core.rs). -/
def InterruptType.vector : InterruptType → Nat
  | .Reset => 0xfffe
  | .Nmi => 0xfffc
  | .Swi => 0xfffa
  | .Irq => 0xfff8
  | .Firq => 0xfff6
  | .Swi2 => 0xfff4
  | .Swi3 => 0xfff2

/-- Modelled from the spec: the register names pushed during interrupt
stacking (`registers::Name`; registers.rs is not under src/). -/
inductive RegName where
  | PC
  | U
  | Y
  | X
  | DP
  | B
  | A
  | CC
deriving DecidableEq

/-- Modelled from the spec: `registers::reg_size` — 16-bit registers PC,
U, Y, X take two bytes, the 8-bit DP, B, A, CC take one. -/
def regSize : RegName → Nat
  | .PC | .U | .Y | .X => 2
  | _ => 1

/-- Modelled from the spec: `Set::get_register` restricted to the pushed
registers. -/
def Regs.getRegister (r : Regs) : RegName → Nat
  | .PC => r.pc
  | .U => r.u
  | .Y => r.y
  | .X => r.x
  | .DP => r.dp
  | .B => r.b
  | .A => r.a
  | .CC => r.cc

/-- Modelled from the spec: `cc.set(CCBit::E, b)` — CC is the bitfield
`{E, F, H, I, N, Z, V, C}` from high bit to low, so E is bit 7 (masks
0x50 = F|I and 0x10 = I in §4.6 fix the order). -/
def ccSetE (cc : Nat) (b : Bool) : Nat :=
  if b then cc ||| 0x80 else cc &&& (0xff ^^^ 0x80)

/-- Result of a runtime step: `panic` for Rust panics, `err` for `Error`
returns, `ok` for success. -/
inductive RtResult (α : Type) where
  | panic
  | err (k : ErrKind)
  | ok (a : α)

/-- Sequencing on `RtResult`, propagating panics and errors. -/
def RtResult.bind {α β : Type} (r : RtResult α) (f : α → RtResult β) : RtResult β :=
  match r with
  | .panic => .panic
  | .err e => .err e
  | .ok a => f a

/-- Embeds `Core::_write_u8u16` (src/memory.rs): a 2-byte value writes
the high byte at `addr` and the low byte at `addr + 1` (wrapping);
a 1-byte value writes its low byte at `addr`.  Audio samples emitted by
the underlying writes are not observed by any caller here and are
dropped. -/
def Core.write_u8u16 (c : Core) (at_ : AccessType) (addr val sz : Nat) : Option Core :=
  if sz = 2 then
    match c.write_u8 at_ addr ((val >>> 8) &&& 0xff) with
    | none => none
    | some r =>
      match r.fst.write_u8 at_ ((addr + 1) % 65536) (val &&& 0xff) with
      | none => none
      | some r2 => some r2.fst
  else
    match c.write_u8 at_ addr (val &&& 0xff) with
    | none => none
    | some r => some r.fst

/-- Embeds `Core::system_psh` (src/runtime.rs): a stack-overflow guard
(Runtime error), then a `System` write of the register below `S`, then
`S` is moved down. -/
def Core.system_psh (c : Core) (n : RegName) : RtResult Core :=
  let addr := c.reg.s
  if addr < regSize n then .err .Runtime
  else
    let addr := addr - regSize n
    match c.write_u8u16 .System addr (c.reg.getRegister n) (regSize n) with
    | none => .panic
    | some c1 => .ok { c1 with reg := { c1.reg with s := addr } }

/-- Embeds `Core::stack_for_interrupt` (src/runtime.rs): push PC, then
for the entire frame U, Y, X, DP, B, A, then set CC.E to `entire` and
push CC. -/
def Core.stack_for_interrupt (c : Core) (entire : Bool) : RtResult Core :=
  (c.system_psh .PC).bind fun c =>
    (if entire then
      (c.system_psh .U).bind fun c =>
      (c.system_psh .Y).bind fun c =>
      (c.system_psh .X).bind fun c =>
      (c.system_psh .DP).bind fun c =>
      (c.system_psh .B).bind fun c =>
      c.system_psh .A
    else .ok c).bind fun c =>
      Core.system_psh { c with reg := { c.reg with cc := ccSetE c.reg.cc entire } } .CC

/-- Embeds the `entire` flag computed by the `match it` in
`Core::start_interrupt` (src/runtime.rs): only FIRQ stacks the short
frame. -/
def entireFor : InterruptType → Bool
  | .Firq => false
  | _ => true

/-- Embeds `if_mask_flags` from the same `match it`: 0 for SWI2/SWI3,
0x10 for IRQ, 0x50 for FIRQ and for the remaining kinds (Reset, NMI,
SWI). -/
def maskFor : InterruptType → Nat
  | .Swi2 | .Swi3 => 0
  | .Irq => 0x10
  | .Firq => 0x50
  | _ => 0x50

/-- Embeds `Core::start_interrupt` (src/runtime.rs): the
`assert!(!self.in_sync)` and the zero-vector check become `panic`;
stacking is skipped inside CWAI; the mask is OR-ed into CC; PC is loaded
from the vector and `in_cwai` cleared. -/
def Core.start_interrupt (c : Core) (it : InterruptType) : RtResult Core :=
  if c.in_sync then .panic
  else
    ((if !c.in_cwai then c.stack_for_interrupt (entireFor it) else .ok c).bind fun c1 =>
      let c1 : Core := { c1 with reg := { c1.reg with cc := c1.reg.cc ||| maskFor it } }
      let r := c1.read_u16 .System it.vector
      let r2 := r.snd.read_u8 .System r.fst
      if r2.fst = 0 then .panic
      else .ok { r2.snd with reg := { r2.snd.reg with pc := r.fst }, in_cwai := false })

lemma write_u8_system_ram (c : Core) (addr d : Nat) (h : addr ≤ 0xfeff) :
    c.write_u8 .System addr d =
      some ({ c with raw_ram := updateRam c.raw_ram addr d }, []) := by
  unfold Core.write_u8
  rw [if_pos h, if_neg (by simp)]

lemma write_u8u16_sys2 (c : Core) (addr val : Nat) (h : addr + 1 ≤ 0xfeff) :
    c.write_u8u16 .System addr val 2 =
      some { c with raw_ram :=
        (updateRam (updateRam c.raw_ram addr ((val >>> 8) &&& 0xff))
          (addr + 1) (val &&& 0xff)) } := by
  have h1 := write_u8_system_ram c addr ((val >>> 8) &&& 0xff) (by omega)
  have h2 := write_u8_system_ram { c with raw_ram := updateRam c.raw_ram addr ((val >>> 8) &&& 0xff) }
    (addr + 1) (val &&& 0xff) (by omega)
  have hm : (addr + 1) % 65536 = addr + 1 := Nat.mod_eq_of_lt (by omega)
  unfold Core.write_u8u16
  rw [if_pos rfl, h1]
  simp only [hm, h2]

lemma write_u8u16_sys1 (c : Core) (addr val : Nat) (h : addr ≤ 0xfeff) :
    c.write_u8u16 .System addr val 1 =
      some { c with raw_ram := updateRam c.raw_ram addr (val &&& 0xff) } := by
  unfold Core.write_u8u16
  rw [if_neg (by omega), write_u8_system_ram _ _ _ h]

/-- Core state after one `system_psh` of register `n` (the record produced
by the push when the writes land in RAM). -/
def pushedCore (c : Core) (n : RegName) : Core :=
  match n with
  | .PC | .U | .Y | .X =>
    { c with
      raw_ram := (updateRam (updateRam c.raw_ram (c.reg.s - 2)
          ((c.reg.getRegister n >>> 8) &&& 0xff)) (c.reg.s - 1) (c.reg.getRegister n &&& 0xff)),
      reg := { c.reg with s := c.reg.s - 2 } }
  | _ =>
    { c with
      raw_ram := updateRam c.raw_ram (c.reg.s - 1) (c.reg.getRegister n &&& 0xff),
      reg := { c.reg with s := c.reg.s - 1 } }

lemma system_psh_ok2 (c : Core) (n : RegName) (h : regSize n = 2)
    (h2 : 2 ≤ c.reg.s) (hle : c.reg.s ≤ 0xff00) :
    c.system_psh n = .ok
      { c with
        raw_ram := (updateRam (updateRam c.raw_ram (c.reg.s - 2)
            ((c.reg.getRegister n >>> 8) &&& 0xff)) (c.reg.s - 1) (c.reg.getRegister n &&& 0xff)),
        reg := { c.reg with s := c.reg.s - 2 } } := by
  have hw := write_u8u16_sys2 c (c.reg.s - 2) (c.reg.getRegister n) (by omega)
  rw [show c.reg.s - 2 + 1 = c.reg.s - 1 by omega] at hw
  unfold Core.system_psh
  rw [h, if_neg (by omega)]
  simp [hw]

lemma system_psh_ok1 (c : Core) (n : RegName) (h : regSize n = 1)
    (h2 : 1 ≤ c.reg.s) (hle : c.reg.s ≤ 0xff00) :
    c.system_psh n = .ok
      { c with
        raw_ram := updateRam c.raw_ram (c.reg.s - 1) (c.reg.getRegister n &&& 0xff),
        reg := { c.reg with s := c.reg.s - 1 } } := by
  have hw := write_u8u16_sys1 c (c.reg.s - 1) (c.reg.getRegister n) (by omega)
  unfold Core.system_psh
  rw [h, if_neg (by omega)]
  simp [hw]

lemma system_psh_ok (c : Core) (n : RegName) (h2 : regSize n ≤ c.reg.s)
    (hle : c.reg.s ≤ 0xff00) :
    c.system_psh n = .ok (pushedCore c n) := by
  cases n
  case PC => exact system_psh_ok2 c .PC rfl (by have : regSize RegName.PC = 2 := rfl; omega) hle
  case U => exact system_psh_ok2 c .U rfl (by have : regSize RegName.U = 2 := rfl; omega) hle
  case Y => exact system_psh_ok2 c .Y rfl (by have : regSize RegName.Y = 2 := rfl; omega) hle
  case X => exact system_psh_ok2 c .X rfl (by have : regSize RegName.X = 2 := rfl; omega) hle
  case DP => exact system_psh_ok1 c .DP rfl (by have : regSize RegName.DP = 1 := rfl; omega) hle
  case B => exact system_psh_ok1 c .B rfl (by have : regSize RegName.B = 1 := rfl; omega) hle
  case A => exact system_psh_ok1 c .A rfl (by have : regSize RegName.A = 1 := rfl; omega) hle
  case CC => exact system_psh_ok1 c .CC rfl (by have : regSize RegName.CC = 1 := rfl; omega) hle

lemma pia0_read_pair_raw_ram (c : Core) (x : Nat) :
    (let r := c.pia0.read c.pia1 x;
      ((r.fst : Nat), { c with pia0 := r.snd })).snd.raw_ram = c.raw_ram := rfl

lemma pia0_read_pair_reg (c : Core) (x : Nat) :
    (let r := c.pia0.read c.pia1 x;
      ((r.fst : Nat), { c with pia0 := r.snd })).snd.reg = c.reg := rfl

lemma pia1_read_pair_raw_ram (c : Core) (x : Nat) :
    (let r := c.pia1.read x;
      ((r.fst : Nat), { c with pia1 := r.snd })).snd.raw_ram = c.raw_ram := rfl

lemma pia1_read_pair_reg (c : Core) (x : Nat) :
    (let r := c.pia1.read x;
      ((r.fst : Nat), { c with pia1 := r.snd })).snd.reg = c.reg := rfl

lemma read_u8_snd_raw_ram (c : Core) (a : AccessType) (addr : Nat) :
    (c.read_u8 a addr).snd.raw_ram = c.raw_ram := by
  unfold Core.read_u8
  split_ifs
  · rfl
  · exact pia0_read_pair_raw_ram c (addr - 0xff00)
  · exact pia1_read_pair_raw_ram c (addr - 0xff20)
  · rfl
  · rfl
  · rfl
  · rfl

lemma read_u8_snd_reg (c : Core) (a : AccessType) (addr : Nat) :
    (c.read_u8 a addr).snd.reg = c.reg := by
  unfold Core.read_u8
  split_ifs
  · rfl
  · exact pia0_read_pair_reg c (addr - 0xff00)
  · exact pia1_read_pair_reg c (addr - 0xff20)
  · rfl
  · rfl
  · rfl
  · rfl

lemma read_u16_snd_raw_ram (c : Core) (a : AccessType) (addr : Nat) :
    (c.read_u16 a addr).snd.raw_ram = c.raw_ram := by
  unfold Core.read_u16
  simp only [read_u8_snd_raw_ram]

lemma read_u16_snd_reg (c : Core) (a : AccessType) (addr : Nat) :
    (c.read_u16 a addr).snd.reg = c.reg := by
  unfold Core.read_u16
  simp only [read_u8_snd_reg]

/-- Core state after pushing PC, U, Y, X, DP, B, A during entire-frame
interrupt stacking. -/
def stackedE7 (c : Core) : Core :=
  pushedCore (pushedCore (pushedCore (pushedCore (pushedCore (pushedCore
    (pushedCore c .PC) .U) .Y) .X) .DP) .B) .A

/-- Core state after `stack_for_interrupt(true)`: the seven pushes, CC.E
set, then CC pushed. -/
def stackedEntireCore (c : Core) : Core :=
  pushedCore
    { stackedE7 c with
      reg := { (stackedE7 c).reg with cc := ccSetE (stackedE7 c).reg.cc true } } .CC

/-- Core state after `stack_for_interrupt(false)`: PC pushed, CC.E
cleared, CC pushed. -/
def stackedFirqCore (c : Core) : Core :=
  pushedCore
    { pushedCore c .PC with
      reg := { (pushedCore c .PC).reg with cc := ccSetE (pushedCore c .PC).reg.cc false } } .CC

lemma stack_entire (c : Core) (h12 : 12 ≤ c.reg.s) (hle : c.reg.s ≤ 0xff00) :
    c.stack_for_interrupt true = .ok (stackedEntireCore c) := by
  unfold Core.stack_for_interrupt
  rw [system_psh_ok c .PC (by simp [regSize]; omega) hle]
  simp only [RtResult.bind, if_pos rfl]
  rw [system_psh_ok (pushedCore c .PC) .U
    (by simp [pushedCore, regSize]; omega) (by simp [pushedCore, regSize]; omega)]
  simp only [RtResult.bind]
  rw [system_psh_ok (pushedCore (pushedCore c .PC) .U) .Y
    (by simp [pushedCore, regSize]; omega) (by simp [pushedCore, regSize]; omega)]
  simp only [RtResult.bind]
  rw [system_psh_ok (pushedCore (pushedCore (pushedCore c .PC) .U) .Y) .X
    (by simp [pushedCore, regSize]; omega) (by simp [pushedCore, regSize]; omega)]
  simp only [RtResult.bind]
  rw [system_psh_ok (pushedCore (pushedCore (pushedCore (pushedCore c .PC) .U) .Y) .X) .DP
    (by simp [pushedCore, regSize]; omega) (by simp [pushedCore, regSize]; omega)]
  simp only [RtResult.bind]
  rw [system_psh_ok (pushedCore (pushedCore (pushedCore (pushedCore (pushedCore c .PC)
      .U) .Y) .X) .DP) .B
    (by simp [pushedCore, regSize]; omega) (by simp [pushedCore, regSize]; omega)]
  simp only [RtResult.bind]
  rw [system_psh_ok (pushedCore (pushedCore (pushedCore (pushedCore (pushedCore
      (pushedCore c .PC) .U) .Y) .X) .DP) .B) .A
    (by simp [pushedCore, regSize]; omega) (by simp [pushedCore, regSize]; omega)]
  simp only [if_true, RtResult.bind]
  show Core.system_psh
    { stackedE7 c with
      reg := { (stackedE7 c).reg with cc := ccSetE (stackedE7 c).reg.cc true } } .CC = _
  rw [system_psh_ok
    { stackedE7 c with
      reg := { (stackedE7 c).reg with cc := ccSetE (stackedE7 c).reg.cc true } } .CC
    (by simp [stackedE7, pushedCore, regSize]; omega)
    (by simp [stackedE7, pushedCore, regSize]; omega)]
  rfl

lemma stack_firq (c : Core) (h12 : 12 ≤ c.reg.s) (hle : c.reg.s ≤ 0xff00) :
    c.stack_for_interrupt false = .ok (stackedFirqCore c) := by
  unfold Core.stack_for_interrupt
  rw [system_psh_ok c .PC (by simp [regSize]; omega) hle]
  simp only [RtResult.bind, if_neg (by simp : ¬ (false = true))]
  rw [system_psh_ok
    { pushedCore c .PC with
      reg := { (pushedCore c .PC).reg with cc := ccSetE (pushedCore c .PC).reg.cc false } } .CC
    (by simp [pushedCore, regSize]; omega) (by simp [pushedCore, regSize]; omega)]
  rfl

lemma pushedCore_ram2 (c : Core) (n : RegName) (h : regSize n = 2) (x : Nat) :
    (pushedCore c n).raw_ram x =
      (if x = c.reg.s - 1 then c.reg.getRegister n &&& 0xff
       else if x = c.reg.s - 2 then (c.reg.getRegister n >>> 8) &&& 0xff
       else c.raw_ram x) := by
  cases n <;> simp_all [pushedCore, regSize, updateRam]

lemma pushedCore_ram1 (c : Core) (n : RegName) (h : regSize n = 1) (x : Nat) :
    (pushedCore c n).raw_ram x =
      (if x = c.reg.s - 1 then c.reg.getRegister n &&& 0xff
       else c.raw_ram x) := by
  cases n <;> simp_all [pushedCore, regSize, updateRam]

lemma pushedCore_s2 (c : Core) (n : RegName) (h : regSize n = 2) :
    (pushedCore c n).reg.s = c.reg.s - 2 := by
  cases n <;> simp_all [pushedCore, regSize]

lemma pushedCore_s1 (c : Core) (n : RegName) (h : regSize n = 1) :
    (pushedCore c n).reg.s = c.reg.s - 1 := by
  cases n <;> simp_all [pushedCore, regSize]

lemma pushedCore_ra (c : Core) (n : RegName) : (pushedCore c n).reg.a = c.reg.a := by
  cases n <;> rfl

lemma pushedCore_rb (c : Core) (n : RegName) : (pushedCore c n).reg.b = c.reg.b := by
  cases n <;> rfl

lemma pushedCore_rdp (c : Core) (n : RegName) : (pushedCore c n).reg.dp = c.reg.dp := by
  cases n <;> rfl

lemma pushedCore_rcc (c : Core) (n : RegName) : (pushedCore c n).reg.cc = c.reg.cc := by
  cases n <;> rfl

lemma pushedCore_rx (c : Core) (n : RegName) : (pushedCore c n).reg.x = c.reg.x := by
  cases n <;> rfl

lemma pushedCore_ry (c : Core) (n : RegName) : (pushedCore c n).reg.y = c.reg.y := by
  cases n <;> rfl

lemma pushedCore_ru (c : Core) (n : RegName) : (pushedCore c n).reg.u = c.reg.u := by
  cases n <;> rfl

lemma pushedCore_rpc (c : Core) (n : RegName) : (pushedCore c n).reg.pc = c.reg.pc := by
  cases n <;> rfl

lemma ccSetE_true (cc : Nat) : ccSetE cc true = cc ||| 0x80 := rfl

lemma ccSetE_false (cc : Nat) : ccSetE cc false = cc &&& 0x7f := rfl

lemma sE_s (c : Core) : (stackedEntireCore c).reg.s = c.reg.s - 12 := by
  simp only [stackedEntireCore, stackedE7, pushedCore_s1, pushedCore_s2, regSize]
  omega

lemma sE_cc (c : Core) : (stackedEntireCore c).reg.cc = c.reg.cc ||| 0x80 := by
  simp only [stackedEntireCore, stackedE7, pushedCore_rcc, ccSetE_true]

lemma sE_ram (c : Core) (x : Nat) :
    (stackedEntireCore c).raw_ram x =
      (if x = c.reg.s - 2 - 2 - 2 - 2 - 1 - 1 - 1 - 1 then (c.reg.cc ||| 0x80) &&& 0xff
       else if x = c.reg.s - 2 - 2 - 2 - 2 - 1 - 1 - 1 then c.reg.a &&& 0xff
       else if x = c.reg.s - 2 - 2 - 2 - 2 - 1 - 1 then c.reg.b &&& 0xff
       else if x = c.reg.s - 2 - 2 - 2 - 2 - 1 then c.reg.dp &&& 0xff
       else if x = c.reg.s - 2 - 2 - 2 - 1 then c.reg.x &&& 0xff
       else if x = c.reg.s - 2 - 2 - 2 - 2 then (c.reg.x >>> 8) &&& 0xff
       else if x = c.reg.s - 2 - 2 - 1 then c.reg.y &&& 0xff
       else if x = c.reg.s - 2 - 2 - 2 then (c.reg.y >>> 8) &&& 0xff
       else if x = c.reg.s - 2 - 1 then c.reg.u &&& 0xff
       else if x = c.reg.s - 2 - 2 then (c.reg.u >>> 8) &&& 0xff
       else if x = c.reg.s - 1 then c.reg.pc &&& 0xff
       else if x = c.reg.s - 2 then (c.reg.pc >>> 8) &&& 0xff
       else c.raw_ram x) := by
  simp only [stackedEntireCore, stackedE7, pushedCore_ram1, pushedCore_ram2,
    pushedCore_s1, pushedCore_s2, pushedCore_ra, pushedCore_rb, pushedCore_rdp,
    pushedCore_rcc, pushedCore_rx, pushedCore_ry, pushedCore_ru, pushedCore_rpc,
    Regs.getRegister, ccSetE_true, regSize]

lemma sF_s (c : Core) : (stackedFirqCore c).reg.s = c.reg.s - 3 := by
  simp only [stackedFirqCore, pushedCore_s1, pushedCore_s2, regSize]
  omega

lemma sF_cc (c : Core) : (stackedFirqCore c).reg.cc = c.reg.cc &&& 0x7f := by
  simp only [stackedFirqCore, pushedCore_rcc, ccSetE_false]

lemma sF_ram (c : Core) (x : Nat) :
    (stackedFirqCore c).raw_ram x =
      (if x = c.reg.s - 2 - 1 then (c.reg.cc &&& 0x7f) &&& 0xff
       else if x = c.reg.s - 1 then c.reg.pc &&& 0xff
       else if x = c.reg.s - 2 then (c.reg.pc >>> 8) &&& 0xff
       else c.raw_ram x) := by
  simp only [stackedFirqCore, pushedCore_ram1, pushedCore_ram2, pushedCore_s1,
    pushedCore_s2, pushedCore_rpc, pushedCore_rcc, Regs.getRegister, ccSetE_false,
    regSize]

set_option maxHeartbeats 3200000 in
lemma entire_frame_facts (c c' : Core) (it : InterruptType) (h12 : 12 ≤ c.reg.s)
    (hram : c'.raw_ram = (stackedEntireCore c).raw_ram)
    (hs2 : c'.reg.s = (stackedEntireCore c).reg.s)
    (hc2 : c'.reg.cc = (stackedEntireCore c).reg.cc ||| maskFor it) :
    c'.reg.s = c.reg.s - 12 ∧
    c'.raw_ram (c.reg.s - 2) = (c.reg.pc >>> 8) &&& 0xff ∧
    c'.raw_ram (c.reg.s - 1) = c.reg.pc &&& 0xff ∧
    c'.raw_ram (c.reg.s - 4) = (c.reg.u >>> 8) &&& 0xff ∧
    c'.raw_ram (c.reg.s - 3) = c.reg.u &&& 0xff ∧
    c'.raw_ram (c.reg.s - 6) = (c.reg.y >>> 8) &&& 0xff ∧
    c'.raw_ram (c.reg.s - 5) = c.reg.y &&& 0xff ∧
    c'.raw_ram (c.reg.s - 8) = (c.reg.x >>> 8) &&& 0xff ∧
    c'.raw_ram (c.reg.s - 7) = c.reg.x &&& 0xff ∧
    c'.raw_ram (c.reg.s - 9) = c.reg.dp &&& 0xff ∧
    c'.raw_ram (c.reg.s - 10) = c.reg.b &&& 0xff ∧
    c'.raw_ram (c.reg.s - 11) = c.reg.a &&& 0xff ∧
    c'.raw_ram (c.reg.s - 12) = (c.reg.cc ||| 0x80) &&& 0xff ∧
    c'.reg.cc = (c.reg.cc ||| 0x80) ||| maskFor it := by
  refine ⟨?_, ?_, ?_, ?_, ?_, ?_, ?_, ?_, ?_, ?_, ?_, ?_, ?_, ?_⟩
  · rw [hs2, sE_s]
  · rw [hram, sE_ram]
    iterate 11 rw [if_neg (by omega)]
    rw [if_pos rfl]
  · rw [hram, sE_ram]
    iterate 10 rw [if_neg (by omega)]
    rw [if_pos rfl]
  · rw [hram, sE_ram]
    iterate 9 rw [if_neg (by omega)]
    rw [if_pos (by omega)]
  · rw [hram, sE_ram]
    iterate 8 rw [if_neg (by omega)]
    rw [if_pos (by omega)]
  · rw [hram, sE_ram]
    iterate 7 rw [if_neg (by omega)]
    rw [if_pos (by omega)]
  · rw [hram, sE_ram]
    iterate 6 rw [if_neg (by omega)]
    rw [if_pos (by omega)]
  · rw [hram, sE_ram]
    iterate 5 rw [if_neg (by omega)]
    rw [if_pos (by omega)]
  · rw [hram, sE_ram]
    iterate 4 rw [if_neg (by omega)]
    rw [if_pos (by omega)]
  · rw [hram, sE_ram]
    iterate 3 rw [if_neg (by omega)]
    rw [if_pos (by omega)]
  · rw [hram, sE_ram]
    iterate 2 rw [if_neg (by omega)]
    rw [if_pos (by omega)]
  · rw [hram, sE_ram]
    iterate 1 rw [if_neg (by omega)]
    rw [if_pos (by omega)]
  · rw [hram, sE_ram]
    rw [if_pos (by omega)]
  · rw [hc2, sE_cc]

set_option maxHeartbeats 3200000 in
lemma firq_frame_facts (c c' : Core) (h12 : 12 ≤ c.reg.s)
    (hram : c'.raw_ram = (stackedFirqCore c).raw_ram)
    (hs2 : c'.reg.s = (stackedFirqCore c).reg.s)
    (hc2 : c'.reg.cc = (stackedFirqCore c).reg.cc ||| 0x50) :
    c'.reg.s = c.reg.s - 3 ∧
    c'.raw_ram (c.reg.s - 2) = (c.reg.pc >>> 8) &&& 0xff ∧
    c'.raw_ram (c.reg.s - 1) = c.reg.pc &&& 0xff ∧
    c'.raw_ram (c.reg.s - 3) = (c.reg.cc &&& 0x7f) &&& 0xff ∧
    c'.reg.cc = (c.reg.cc &&& 0x7f) ||| 0x50 := by
  refine ⟨?_, ?_, ?_, ?_, ?_⟩
  · rw [hs2, sF_s]
  · rw [hram, sF_ram]
    iterate 2 rw [if_neg (by omega)]
    rw [if_pos rfl]
  · rw [hram, sF_ram]
    iterate 1 rw [if_neg (by omega)]
    rw [if_pos rfl]
  · rw [hram, sF_ram]
    rw [if_pos (by omega)]
  · rw [hc2, sF_cc]

set_option maxHeartbeats 3200000 in
/-- C4: on an accepted interrupt with `in_cwai` false, the full frame
{PC, U, Y, X, DP, B, A, CC} is pushed in that order for IRQ, NMI, SWI,
SWI2, SWI3 and RESET (CC last, at the lowest address, with CC.E forced to
1), while FIRQ pushes only PC and CC with CC.E forced to 0; afterwards CC
is OR-ed with the kind's mask (0x10 for IRQ, 0x50 for FIRQ and SWI, also
0x50 for NMI/RESET and 0 for SWI2/SWI3); with `in_cwai` true nothing is
pushed and only the mask is OR-ed in. -/
theorem c4_interrupt_frame (c c' : Core) (it : InterruptType)
    (hrun : c.start_interrupt it = .ok c')
    (h12 : 12 ≤ c.reg.s) (hle : c.reg.s ≤ 0xff00) :
    (c.in_cwai = false → it ≠ .Firq →
      (c'.reg.s = c.reg.s - 12 ∧
       c'.raw_ram (c.reg.s - 2) = (c.reg.pc >>> 8) &&& 0xff ∧
       c'.raw_ram (c.reg.s - 1) = c.reg.pc &&& 0xff ∧
       c'.raw_ram (c.reg.s - 4) = (c.reg.u >>> 8) &&& 0xff ∧
       c'.raw_ram (c.reg.s - 3) = c.reg.u &&& 0xff ∧
       c'.raw_ram (c.reg.s - 6) = (c.reg.y >>> 8) &&& 0xff ∧
       c'.raw_ram (c.reg.s - 5) = c.reg.y &&& 0xff ∧
       c'.raw_ram (c.reg.s - 8) = (c.reg.x >>> 8) &&& 0xff ∧
       c'.raw_ram (c.reg.s - 7) = c.reg.x &&& 0xff ∧
       c'.raw_ram (c.reg.s - 9) = c.reg.dp &&& 0xff ∧
       c'.raw_ram (c.reg.s - 10) = c.reg.b &&& 0xff ∧
       c'.raw_ram (c.reg.s - 11) = c.reg.a &&& 0xff ∧
       c'.raw_ram (c.reg.s - 12) = (c.reg.cc ||| 0x80) &&& 0xff ∧
       c'.reg.cc = (c.reg.cc ||| 0x80) ||| maskFor it)) ∧
    (c.in_cwai = false → it = .Firq →
      (c'.reg.s = c.reg.s - 3 ∧
       c'.raw_ram (c.reg.s - 2) = (c.reg.pc >>> 8) &&& 0xff ∧
       c'.raw_ram (c.reg.s - 1) = c.reg.pc &&& 0xff ∧
       c'.raw_ram (c.reg.s - 3) = (c.reg.cc &&& 0x7f) &&& 0xff ∧
       c'.reg.cc = (c.reg.cc &&& 0x7f) ||| 0x50)) ∧
    (c.in_cwai = true →
      (c'.raw_ram = c.raw_ram ∧ c'.reg.s = c.reg.s ∧
       c'.reg.cc = c.reg.cc ||| maskFor it)) := by
  unfold Core.start_interrupt at hrun
  by_cases hs : c.in_sync
  · rw [if_pos hs] at hrun
    simp at hrun
  · rw [if_neg hs] at hrun
    by_cases hcw : c.in_cwai
    · rw [hcw] at hrun
      simp only [Bool.not_true] at hrun
      rw [if_neg (by simp)] at hrun
      simp only [RtResult.bind] at hrun
      split at hrun
      · exact absurd hrun (by simp)
      · injection hrun with h
        subst h
        refine ⟨fun h1 _ => absurd h1 (by simp [hcw]), fun h1 _ => absurd h1 (by simp [hcw]),
          fun _ => ⟨?_, ?_, ?_⟩⟩
        · simp only [read_u8_snd_raw_ram, read_u16_snd_raw_ram]
        · simp only [read_u8_snd_reg, read_u16_snd_reg]
        · simp only [read_u8_snd_reg, read_u16_snd_reg]
    · have hcw' : c.in_cwai = false := by revert hcw; cases c.in_cwai <;> simp
      rw [hcw'] at hrun
      simp only [Bool.not_false] at hrun
      rw [if_pos trivial] at hrun
      by_cases hf : it = .Firq
      · subst hf
        rw [show entireFor .Firq = false from rfl] at hrun
        rw [stack_firq c h12 hle] at hrun
        simp only [RtResult.bind] at hrun
        split at hrun
        · exact absurd hrun (by simp)
        · injection hrun with h
          have hram : c'.raw_ram = (stackedFirqCore c).raw_ram := by
            rw [← h]; simp only [read_u8_snd_raw_ram, read_u16_snd_raw_ram]
          have hs2 : c'.reg.s = (stackedFirqCore c).reg.s := by
            rw [← h]; simp only [read_u8_snd_reg, read_u16_snd_reg]
          have hc2 : c'.reg.cc = (stackedFirqCore c).reg.cc ||| maskFor .Firq := by
            rw [← h]; simp only [read_u8_snd_reg, read_u16_snd_reg]
          exact ⟨fun _ h2 => absurd rfl h2,
            fun _ _ => firq_frame_facts c c' h12 hram hs2 hc2,
            fun h3 => absurd h3 (by simp [hcw'])⟩
      · have hent : entireFor it = true := by cases it <;> simp_all [entireFor]
        rw [hent] at hrun
        rw [stack_entire c h12 hle] at hrun
        simp only [RtResult.bind] at hrun
        split at hrun
        · exact absurd hrun (by simp)
        · injection hrun with h
          have hram : c'.raw_ram = (stackedEntireCore c).raw_ram := by
            rw [← h]; simp only [read_u8_snd_raw_ram, read_u16_snd_raw_ram]
          have hs2 : c'.reg.s = (stackedEntireCore c).reg.s := by
            rw [← h]; simp only [read_u8_snd_reg, read_u16_snd_reg]
          have hc2 : c'.reg.cc = (stackedEntireCore c).reg.cc ||| maskFor it := by
            rw [← h]; simp only [read_u8_snd_reg, read_u16_snd_reg]
          exact ⟨fun _ _ => entire_frame_facts c c' it h12 hram hs2 hc2,
            fun _ h2 => absurd h2 hf, fun h3 => absurd h3 (by simp [hcw'])⟩

/-- Concrete core for the C4 witness: RAM filled with the byte `1` (so
the vector fetch yields the nonzero target `0x0101`), `ram_top = 0x7fff`,
stack pointer `S = 0x100`, not in CWAI or SYNC. -/
def core4 : Core :=
  ⟨fun _ => 1, 0x7fff, Sam.new, Pia0.init, Pia1.init,
   { regsZero with s := 0x100 }, false, false⟩

/-- The core produced by delivering an IRQ to `core4`. -/
def c4res : Core :=
  match core4.start_interrupt .Irq with
  | .ok c => c
  | _ => core4

theorem c4_interrupt_frame_witness :
    12 ≤ core4.reg.s ∧ core4.reg.s ≤ 0xff00 ∧
    core4.start_interrupt .Irq = .ok c4res ∧
    (c4res.reg.s = core4.reg.s - 12 ∧
     c4res.raw_ram (core4.reg.s - 2) = (core4.reg.pc >>> 8) &&& 0xff ∧
     c4res.raw_ram (core4.reg.s - 1) = core4.reg.pc &&& 0xff ∧
     c4res.raw_ram (core4.reg.s - 4) = (core4.reg.u >>> 8) &&& 0xff ∧
     c4res.raw_ram (core4.reg.s - 3) = core4.reg.u &&& 0xff ∧
     c4res.raw_ram (core4.reg.s - 6) = (core4.reg.y >>> 8) &&& 0xff ∧
     c4res.raw_ram (core4.reg.s - 5) = core4.reg.y &&& 0xff ∧
     c4res.raw_ram (core4.reg.s - 8) = (core4.reg.x >>> 8) &&& 0xff ∧
     c4res.raw_ram (core4.reg.s - 7) = core4.reg.x &&& 0xff ∧
     c4res.raw_ram (core4.reg.s - 9) = core4.reg.dp &&& 0xff ∧
     c4res.raw_ram (core4.reg.s - 10) = core4.reg.b &&& 0xff ∧
     c4res.raw_ram (core4.reg.s - 11) = core4.reg.a &&& 0xff ∧
     c4res.raw_ram (core4.reg.s - 12) = (core4.reg.cc ||| 0x80) &&& 0xff ∧
     c4res.reg.cc = (core4.reg.cc ||| 0x80) ||| maskFor .Irq) :=
  ⟨by decide, by decide, rfl,
   (c4_interrupt_frame core4 c4res .Irq rfl (by decide) (by decide)).1 rfl
     (by decide)⟩

end Coco
